import Mathlib

/-!
Verification development for the ccproxy reverse proxy (Go).

Shallow embedding of the routing, health-check, retry, URL-building,
configuration-normalization and statistics code, together with theorems
settling the specification claims about those functions.

Conventions of the embedding:
* Go strings are Lean `String`s; the relevant Go `strings` helpers are
  reproduced below (`goContains`, `goTrimSuffix`, ...).
* Go `time.Duration` values are modelled as `Nat` nanoseconds (all the
  durations handled by this code are non-negative; Go integer division
  on non-negative `int64` agrees with `Nat` division).
* The network is modelled as a pure function from the full request URL
  to `Option Nat`: `none` is a transport error, `some s` an HTTP
  response with status `s`.
* Go maps used as health registries are modelled as functions
  `String → Option URLHealth`.
-/

namespace CCProxy

/-! ### Go string helpers

All string operations are defined over the underlying character lists
(structural recursion only), so that every function of the embedding is
evaluable by the kernel.  Case mapping is the ASCII mapping, which is
what all the strings this code compares consist of. -/

/-- Model of Go `strings.HasSuffix`. -/
def goEndsWith (s suf : String) : Bool :=
  suf.data.isSuffixOf s.data

/-- Model of Go `strings.HasPrefix`. -/
def goStartsWith (s pre : String) : Bool :=
  pre.data.isPrefixOf s.data

/-- Model of Go `strings.Contains` on character lists: `sub` occurs as
a contiguous substring of `l`. -/
def listContainsSub (l sub : List Char) : Bool :=
  (List.range (l.length + 1)).any fun i => sub.isPrefixOf (l.drop i)

/-- Model of Go `strings.Contains s sub`. -/
def goContains (s sub : String) : Bool :=
  listContainsSub s.data sub.data

/-- Model of Go `strings.TrimSuffix`: removes one trailing copy of `suf`
when present, otherwise returns the string unchanged. -/
def goTrimSuffix (s suf : String) : String :=
  if goEndsWith s suf then ⟨s.data.take (s.data.length - suf.data.length)⟩
  else s

/-- Model of Go `strings.ToLower` (ASCII range). -/
def goToLower (s : String) : String :=
  ⟨s.data.map Char.toLower⟩

/-- Model of Go `strings.ToUpper` (ASCII range). -/
def goToUpper (s : String) : String :=
  ⟨s.data.map Char.toUpper⟩

/-- ASCII whitespace, the part of Go `unicode.IsSpace` relevant here. -/
def goIsSpace (c : Char) : Bool :=
  c == ' ' || c == '\t' || c == '\n' || c == '\x0b' || c == '\x0c' ||
    c == '\r'

/-- Model of Go `strings.TrimSpace` (ASCII whitespace). -/
def goTrimSpace (s : String) : String :=
  ⟨((s.data.dropWhile goIsSpace).reverse.dropWhile goIsSpace).reverse⟩

/-- Splitting around each leftmost non-overlapping occurrence of the
(non-empty) separator, fuelled by the remaining length. -/
def splitOnAux (sep : List Char) : Nat → List Char → List Char →
    List (List Char)
  | _, [], acc => [acc.reverse]
  | 0, l, acc => [acc.reverse ++ l]
  | fuel + 1, c :: rest, acc =>
    if sep.isPrefixOf (c :: rest) then
      acc.reverse :: splitOnAux sep fuel ((c :: rest).drop sep.length) []
    else splitOnAux sep fuel rest (c :: acc)

/-- Model of Go `strings.Split s sep` for a non-empty separator (the
only way this repository calls it). -/
def goSplitOn (s sep : String) : List String :=
  if sep.data.isEmpty then [s]
  else (splitOnAux sep.data s.data.length s.data []).map String.mk

/-- Joining a list of strings with a separator. -/
def goIntercalate (sep : String) (parts : List String) : String :=
  ⟨List.intercalate sep.data (parts.map String.data)⟩

/-! ### Configuration data model (config package, `ProxyTarget`) -/

/-- Embedding of `config.ProxyTarget`.  Field `headers` carries the
per-route header overrides as an association list; the YAML decoding
itself is out of scope. -/
structure ProxyTarget where
  path : String
  targetURL : String
  targetURLs : List String
  healthCheckPath : String
  healthCheckDelay : Nat
  methods : List String
  headers : List (String × String)
  httpProxy : String
  deriving Repr, DecidableEq

/-- Embedding of the per-target body of `processTargetURLs` in the config package:
splits a comma-separated `target_url` into `targetURLs` (trimming and
dropping empty entries), keeps a single URL as a one-element list, and
applies the health-check defaulting. -/
def processTarget (t : ProxyTarget) : ProxyTarget :=
  let t1 : ProxyTarget :=
    if t.targetURL != "" then
      if goContains t.targetURL "," then
        let urls := goSplitOn t.targetURL ","
        let t0 : ProxyTarget := { t with
          targetURLs := t.targetURLs ++
            (urls.map (fun u => goTrimSpace u)).filter (fun u => u != "") }
        if 0 < t0.targetURLs.length then
          { t0 with targetURL := t0.targetURLs.headD "" }
        else t0
      else
        { t with targetURLs := [t.targetURL] }
    else t
  let t2 : ProxyTarget :=
    if t1.healthCheckPath == "" then
      if goContains t1.targetURL "api" then { t1 with healthCheckPath := "" }
      else { t1 with healthCheckPath := "/" }
    else t1
  if t2.healthCheckDelay == 0 then { t2 with healthCheckDelay := 30 } else t2

/-- Embedding of `processTargetURLs` over the whole route table. -/
def processTargetURLs (targets : List ProxyTarget) : List ProxyTarget :=
  targets.map processTarget

/-! ### Router: path and method matching (proxy/handler.go) -/

/-- Embedding of `ProxyHandler.matchPath`. -/
def matchPath (requestPath targetPath : String) : Bool :=
  if goEndsWith targetPath "*" then
    goStartsWith requestPath (goTrimSuffix targetPath "*")
  else requestPath == targetPath

/-- Embedding of `ProxyHandler.matchMethod`. -/
def matchMethod (method : String) (allowedMethods : List String) : Bool :=
  if allowedMethods.isEmpty then true
  else allowedMethods.any fun allowed =>
    goToUpper method == goToUpper allowed

/-- Embedding of `ProxyHandler.findTarget`: first route in declared
order whose path and method both match. -/
def findTarget (targets : List ProxyTarget) (path method : String) :
    Option ProxyTarget :=
  match targets with
  | [] => none
  | t :: rest =>
    if matchPath path t.path && matchMethod method t.methods then some t
    else findTarget rest path method

/-! ### Health monitor (proxy/health_check.go) -/

/-- Embedding of `URLHealth` (timestamps dropped, durations in `Nat`
nanoseconds). -/
structure URLHealth where
  url : String
  isHealthy : Bool
  responseTime : Nat
  errorCount : Nat
  totalChecks : Nat
  successChecks : Nat
  averageTime : Nat
  minTime : Nat
  maxTime : Nat
  deriving Repr, DecidableEq

/-- The Go constant `time.Hour` in nanoseconds, the initialization constant used by
`updateHealthStatus` and `GetFastestHealthyURL`. -/
def timeHour : Nat := 3600000000000

/-- Embedding of the record freshly created by `initializeURLHealth`
(healthy by assumption, all counters zero). -/
def initializeURLHealth (url : String) : URLHealth :=
  { url := url, isHealthy := true, responseTime := 0, errorCount := 0,
    totalChecks := 0, successChecks := 0, averageTime := 0,
    minTime := 0, maxTime := 0 }

/-- Embedding of the record `updateHealthStatus` creates lazily when the
URL has no entry yet (`MinTime` starts at one hour). -/
def newURLHealth (url : String) : URLHealth :=
  { url := url, isHealthy := false, responseTime := 0, errorCount := 0,
    totalChecks := 0, successChecks := 0, averageTime := 0,
    minTime := timeHour, maxTime := 0 }

/-- Embedding of the mutation `updateHealthStatus` performs on one
`URLHealth` record for one probe result. -/
def updateHealthStatus (health : URLHealth) (isHealthy : Bool)
    (responseTime : Nat) : URLHealth :=
  let h := { health with
    isHealthy := isHealthy,
    responseTime := responseTime,
    totalChecks := health.totalChecks + 1 }
  let h :=
    if 0 < responseTime then
      let h := if responseTime < h.minTime || h.minTime == 0 then
          { h with minTime := responseTime } else h
      let h := if h.maxTime < responseTime then
          { h with maxTime := responseTime } else h
      if isHealthy then
        let h := { h with successChecks := h.successChecks + 1 }
        if h.successChecks == 1 then { h with averageTime := responseTime }
        else { h with averageTime :=
          (h.averageTime * (h.successChecks - 1) + responseTime) /
            h.successChecks }
      else h
    else h
  if isHealthy then { h with errorCount := 0 }
  else { h with errorCount := h.errorCount + 1 }

/-- Health registry: the Go map `urlHealthMap`. -/
def HealthMap : Type := String → Option URLHealth

/-- Embedding of the loop body of `GetFastestHealthyURL`: walks the URL
list threading `(fastestURL, fastestTime, healthyCount)`; `Sum.inl url`
is the early return taken when `url` has no health record. -/
def gfhuLoop (m : HealthMap) :
    List String → String → Nat → Nat → String ⊕ (String × Nat × Nat)
  | [], fastestURL, fastestTime, healthyCount =>
    Sum.inr (fastestURL, fastestTime, healthyCount)
  | url :: rest, fastestURL, fastestTime, healthyCount =>
    match m url with
    | none => Sum.inl url
    | some health =>
      if health.isHealthy then
        let responseTimeToUse :=
          if 0 < health.averageTime then health.averageTime
          else health.responseTime
        if responseTimeToUse < fastestTime then
          gfhuLoop m rest url responseTimeToUse (healthyCount + 1)
        else
          gfhuLoop m rest fastestURL fastestTime (healthyCount + 1)
      else gfhuLoop m rest fastestURL fastestTime healthyCount

/-- Embedding of `HealthChecker.GetFastestHealthyURL`. -/
def GetFastestHealthyURL (m : HealthMap) (urls : List String) : String :=
  match gfhuLoop m urls "" timeHour 0 with
  | Sum.inl url => url
  | Sum.inr (fastestURL, _, healthyCount) =>
    if healthyCount == 0 && 0 < urls.length then urls.headD ""
    else fastestURL

/-- Embedding of `ProxyHandler.selectFastestURL`. -/
def selectFastestURL (m : HealthMap) (target : ProxyTarget) : String :=
  if 1 < target.targetURLs.length then
    GetFastestHealthyURL m target.targetURLs
  else if target.targetURLs.length == 1 then target.targetURLs.headD ""
  else target.targetURL

/-! ### Router dispatch outcome (ServeHTTP, proxy/handler.go) -/

/-- Observable outcome of `ServeHTTP` up to the point where a request is
handed to the forwarder: either an error response written with
`http.Error`, or a dispatch of the selected target. -/
inductive ServeOutcome where
  | httpError (status : Nat) (body : String)
  | forward (target : ProxyTarget) (fastestURL : String)
  deriving Repr, DecidableEq

/-- Embedding of the routing-and-selection part of
`ProxyHandler.ServeHTTP` (lines 41-80): route miss gives 404, empty
selection gives 503, otherwise the target copy with the selected URL is
forwarded. -/
def serveRoute (targets : List ProxyTarget) (m : HealthMap)
    (path method : String) : ServeOutcome :=
  match findTarget targets path method with
  | none => ServeOutcome.httpError 404 "Not Found"
  | some target =>
    let fastestURL := selectFastestURL m target
    if fastestURL == "" then
      ServeOutcome.httpError 503 "Service Unavailable"
    else
      ServeOutcome.forward { target with targetURL := fastestURL } fastestURL

/-! ### Health probing (performHealthCheck, tryHealthCheckURL) -/

/-- Network model: GET of a full URL yields a transport error (`none`)
or an HTTP status. -/
def Network : Type := String → Option Nat

/-- Embedding of `tryHealthCheckURL`: builds the health-check URL from
the base URL and the path exactly as the source does, issues the GET,
and returns the healthy verdict (status in `[200, 400)`) together with
the status code (`0` on transport error, as in the source). -/
def tryHealthCheckURL (net : Network) (baseURL path : String) : Bool × Nat :=
  let healthURL :=
    if path != "/" && path != "" then
      goTrimSuffix baseURL "/" ++
        (if goStartsWith path "/" then path else "/" ++ path)
    else baseURL
  match net healthURL with
  | none => (false, 0)
  | some status => (decide (200 ≤ status) && decide (status < 400), status)

/-- The well-known health endpoints of strategy 3. -/
def commonHealthPaths : List String :=
  ["/health", "/ping", "/status", "/api/health"]

/-- Embedding of `performHealthCheck`: the four probing strategies in
source order; the timing bookkeeping is dropped. -/
def performHealthCheck (net : Network) (baseURL healthPath : String) : Bool :=
  if (healthPath != "" && healthPath != "/") &&
      (tryHealthCheckURL net baseURL healthPath).1 then true
  else if (healthPath != "/") && (tryHealthCheckURL net baseURL "/").1 then
    true
  else if (commonHealthPaths.filter (fun p => p != healthPath)).any
      (fun p => (tryHealthCheckURL net baseURL p).1) then true
  else if (tryHealthCheckURL net baseURL healthPath).2 == 404 then true
  else false

/-- The sequence of paths `performHealthCheck` actually attempts before
its final 404 re-check, in order (spec-side description used to state
the probing claim). -/
def healthAttemptPaths (healthPath : String) : List String :=
  (if healthPath != "" && healthPath != "/" then [healthPath] else []) ++
  (if healthPath != "/" then ["/"] else []) ++
  commonHealthPaths.filter (fun p => p != healthPath)

/-! ### URL building (buildTargetURL, storage/history.go) -/

/-- The components of a Go `url.URL` this code manipulates. -/
structure GoURL where
  scheme : String
  host : String
  path : String
  rawQuery : String
  deriving Repr, DecidableEq

/-- Model of Go `url.Parse` restricted to the absolute URLs this
repository configures: splits `scheme://host/path?rawQuery`. -/
def goParseURL (s : String) : GoURL :=
  match goSplitOn s "://" with
  | scheme :: rest :: restTail =>
    let hostPath := goIntercalate "://" (rest :: restTail)
    let host : String := ⟨hostPath.data.takeWhile fun c => c != '/' && c != '?'⟩
    let pathQuery : String := ⟨hostPath.data.drop host.data.length⟩
    let path : String := ⟨pathQuery.data.takeWhile fun c => c != '?'⟩
    let rawQuery : String := ⟨pathQuery.data.drop (path.data.length + 1)⟩
    { scheme := scheme, host := host, path := path, rawQuery := rawQuery }
  | _ =>
    let path : String := ⟨s.data.takeWhile fun c => c != '?'⟩
    { scheme := "", host := "", path := path,
      rawQuery := ⟨s.data.drop (path.data.length + 1)⟩ }

/-- Embedding of `ProxyHandler.buildTargetURL` (the parse-error branch
cannot fire in this model, where parsing is total). -/
def buildTargetURL (requestURL : GoURL) (target : ProxyTarget) : GoURL :=
  let targetURL := goParseURL target.targetURL
  let path :=
    if goEndsWith target.path "*" then
      let targetBasePath := goTrimSuffix targetURL.path "/"
      if targetBasePath == "" then requestURL.path
      else targetBasePath ++ requestURL.path
    else targetURL.path
  { scheme := targetURL.scheme, host := targetURL.host, path := path,
    rawQuery := requestURL.rawQuery }

/-! ### Retry classification and retry loop (proxy/handler.go) -/

/-- The literal needle list of `isRetryableError`. -/
def retryableErrors : List String :=
  ["unexpected EOF", "connection reset by peer", "no such host",
   "timeout", "network is unreachable", "connection refused",
   "temporary failure"]

/-- Embedding of `ProxyHandler.isRetryableError`: the error message is
lowercased and each needle is searched for verbatim. -/
def isRetryableError (errStr : String) : Bool :=
  retryableErrors.any fun re => goContains (goToLower errStr) re

/-- Spec-side classifier, following the words of the specification: the
containment test itself is case-insensitive, so both sides are
lowercased.  Kept separate from `isRetryableError` for comparison. -/
def retryableSpec (errStr : String) : Bool :=
  retryableErrors.any fun re => goContains (goToLower errStr) (goToLower re)

/-- Outcome oracle for the upstream attempts of one request: attempt
`i` either succeeds (`none`) or fails with an error message. -/
def AttemptOracle : Type := Nat → Option String

/-- Embedding of `forwardRequestWithRetry`: each attempt rebuilds the
target URL from the same fixed `target` (as `forwardRequest` does on
entry), the loop stops on success or on a non-retryable error, and runs
at most `maxRetries + 1` attempts.  Returns the list of URLs attempted
and the final error, if any. -/
def retryAttempts (oracle : AttemptOracle) (requestURL : GoURL)
    (target : ProxyTarget) : Nat → Nat → List GoURL × Option String
  | _attempt, 0 => ([], none)
  | attempt, fuel + 1 =>
    let url := buildTargetURL requestURL target
    match oracle attempt with
    | none => ([url], none)
    | some err =>
      if !isRetryableError err then ([url], some err)
      else if fuel = 0 then ([url], some err)
      else
        let rest := retryAttempts oracle requestURL target (attempt + 1) fuel
        (url :: rest.1, rest.2)

/-- Embedding of the whole retry loop: attempts `0` through
`maxRetries` inclusive. -/
def forwardRequestWithRetry (oracle : AttemptOracle) (maxRetries : Nat)
    (requestURL : GoURL) (target : ProxyTarget) : List GoURL × Option String :=
  retryAttempts oracle requestURL target 0 (maxRetries + 1)

/-! ### Hub statistics (websocket/simple_hub.go) -/

/-- Embedding of `types.Statistics` (timestamps dropped; the two Go
maps become total counting functions). -/
structure Statistics where
  totalRequests : Nat
  successRequests : Nat
  errorRequests : Nat
  statusCodeCounts : Nat → Nat
  methodCounts : String → Nat

/-- The relevant fields of `types.LogMessage`. -/
structure LogMessage where
  method : String
  statusCode : Nat
  stats : Option Statistics

/-- Embedding of `Hub.updateStats`. -/
def updateStats (stats : Statistics) (message : LogMessage) : Statistics :=
  let s := { stats with totalRequests := stats.totalRequests + 1 }
  let s := { s with methodCounts := fun mth =>
    if mth = message.method then s.methodCounts mth + 1
    else s.methodCounts mth }
  let s := { s with statusCodeCounts := fun c =>
    if c = message.statusCode then s.statusCodeCounts c + 1
    else s.statusCodeCounts c }
  if 200 ≤ message.statusCode ∧ message.statusCode < 400 then
    { s with successRequests := s.successRequests + 1 }
  else
    { s with errorRequests := s.errorRequests + 1 }

/-- Embedding of the statistics part of `Hub.Broadcast`: update the
counters, then attach the resulting snapshot (what `GetStats` copies)
to the message. -/
def broadcast (stats : Statistics) (message : LogMessage) :
    Statistics × LogMessage :=
  let stats := updateStats stats message
  (stats, { message with stats := some stats })

/-- Pointwise order on statistics counters. -/
def statsLE (a b : Statistics) : Prop :=
  a.totalRequests ≤ b.totalRequests ∧
  a.successRequests ≤ b.successRequests ∧
  a.errorRequests ≤ b.errorRequests ∧
  (∀ c, a.statusCodeCounts c ≤ b.statusCodeCounts c) ∧
  (∀ mth, a.methodCounts mth ≤ b.methodCounts mth)

/-- Folding `broadcast` over a sequence of records, keeping the final
counters. -/
def broadcastAll (stats : Statistics) (messages : List LogMessage) :
    Statistics :=
  messages.foldl (fun s mg => (broadcast s mg).1) stats

/-! ### Derived notions used to state the claims -/

/-- The preferred selection metric of `GetFastestHealthyURL`: the
rolling average when positive, otherwise the last response time. -/
def preferredMetric (h : URLHealth) : Nat :=
  if 0 < h.averageTime then h.averageTime else h.responseTime

/-- One URL is recorded healthy in the registry. -/
def healthyRec (m : HealthMap) (u : String) : Bool :=
  match m u with
  | some h => h.isHealthy
  | none => false

/-- The preferred metric of a URL read off the registry (`0` when the
URL has no record). -/
def metricOf (m : HealthMap) (u : String) : Nat :=
  match m u with
  | some h => preferredMetric h
  | none => 0

/-- The URLHealth invariant of the specification (`rolling_average` is
a `Nat` here, so `0 ≤ rolling_average` holds by construction). -/
def healthInvariant (h : URLHealth) : Prop :=
  h.successChecks ≤ h.totalChecks ∧ h.averageTime ≤ h.maxTime

/-! ### Concrete sample data for counterexamples and witnesses -/

/-- A healthy record whose preferred metric equals one hour. -/
def slowHealthy : URLHealth :=
  { url := "a", isHealthy := true, responseTime := timeHour,
    errorCount := 0, totalChecks := 1, successChecks := 1,
    averageTime := timeHour, minTime := timeHour, maxTime := timeHour }

/-- An unhealthy record. -/
def unhealthyRecord : URLHealth :=
  { url := "b", isHealthy := false, responseTime := 5, errorCount := 3,
    totalChecks := 3, successChecks := 0, averageTime := 0,
    minTime := timeHour, maxTime := 5 }

/-- A healthy record with a small rolling average. -/
def fastHealthy : URLHealth :=
  { url := "c", isHealthy := true, responseTime := 7, errorCount := 0,
    totalChecks := 4, successChecks := 4, averageTime := 50,
    minTime := 7, maxTime := 90 }

/-- Registry with no records at all. -/
def mapNone : HealthMap := fun _ => none

/-- Registry marking exactly `"b"` (unhealthy). -/
def mapUnhealthy : HealthMap :=
  fun u => if u = "b" then some unhealthyRecord else none

/-- Registry marking exactly `"c"` (healthy and fast). -/
def mapFast : HealthMap :=
  fun u => if u = "c" then some fastHealthy else none

/-- Registry marking exactly `"a"` (healthy, metric one hour). -/
def mapSlow : HealthMap :=
  fun u => if u = "a" then some slowHealthy else none

/-- A route with one upstream URL. -/
def soloTarget : ProxyTarget :=
  { path := "/x", targetURL := "http://u", targetURLs := ["http://u"],
    healthCheckPath := "/", healthCheckDelay := 30, methods := [],
    headers := [], httpProxy := "" }

/-- A route with two upstream URLs. -/
def duoTarget : ProxyTarget :=
  { path := "/y", targetURL := "http://b", targetURLs := ["http://b", "http://c"],
    healthCheckPath := "/", healthCheckDelay := 30, methods := [],
    headers := [], httpProxy := "" }

/-- Registry marking both URLs of `duoTarget` unhealthy. -/
def mapDuoUnhealthy : HealthMap :=
  fun u =>
    if u = "http://b" then some unhealthyRecord
    else if u = "http://c" then some { unhealthyRecord with url := "http://c" }
    else none

/-- Registry marking the URL of `soloTarget` unhealthy. -/
def mapSoloUnhealthy : HealthMap :=
  fun u => if u = "http://u" then some { unhealthyRecord with url := "http://u" }
    else none

/-- The wildcard API route of scenario 2 of the specification. -/
def apiTarget : ProxyTarget :=
  { path := "/api/*", targetURL := "http://u/v", targetURLs := ["http://u/v"],
    healthCheckPath := "", healthCheckDelay := 30, methods := [],
    headers := [], httpProxy := "" }

/-- The client request URL of scenario 2 of the specification. -/
def exampleRequestURL : GoURL :=
  { scheme := "http", host := "client", path := "/api/users/42",
    rawQuery := "" }

/-- Network answering 404 on `http://u/x` and 500 everywhere else. -/
def cNet : Network :=
  fun s => if s = "http://u/x" then some 404 else some 500

/-- A route whose `target_url` is a lone comma: every comma-separated
entry trims to the empty string. -/
def commaOnlyTarget : ProxyTarget :=
  { path := "/p", targetURL := ",", targetURLs := [],
    healthCheckPath := "", healthCheckDelay := 0, methods := [],
    headers := [], httpProxy := "" }

/-- A route whose `target_url` is a single URL wrapped in spaces. -/
def spacedURLTarget : ProxyTarget :=
  { path := "/p", targetURL := " u ", targetURLs := [],
    healthCheckPath := "", healthCheckDelay := 0, methods := [],
    headers := [], httpProxy := "" }

/-- A route whose `target_url` is a comma-separated pair with spaces. -/
def pairURLTarget : ProxyTarget :=
  { path := "/p", targetURL := " u , v ", targetURLs := [],
    healthCheckPath := "", healthCheckDelay := 0, methods := [],
    headers := [], httpProxy := "" }

/-- All-zero statistics, the initial `Hub` state. -/
def emptyStats : Statistics :=
  { totalRequests := 0, successRequests := 0, errorRequests := 0,
    statusCodeCounts := fun _ => 0, methodCounts := fun _ => 0 }

/-- A sample successful log record. -/
def sampleMsg : LogMessage :=
  { method := "GET", statusCode := 200, stats := none }

/-- An oracle whose every attempt fails with a retryable error. -/
def failOracle : AttemptOracle := fun _ => some "connection refused"

/-! ## Theorems -/

/-! ### Helper lemmas -/

/-- Appending the empty string on the left is the identity. -/
theorem string_empty_append (s : String) : "" ++ s = s := by
  cases s
  rfl

/-- The linear scan of `findTarget` is `List.find?` of the combined
match predicate: first route in declared order wins. -/
theorem findTarget_eq_find? (targets : List ProxyTarget)
    (path method : String) :
    findTarget targets path method =
      targets.find? fun t => matchPath path t.path &&
        matchMethod method t.methods := by
  induction targets with
  | nil => rfl
  | cons t rest ih =>
    by_cases h : (matchPath path t.path && matchMethod method t.methods) = true
    · simp [findTarget, h, List.find?_cons_of_pos]
    · simp only [Bool.not_eq_true] at h
      simp [findTarget, h, List.find?_cons_of_neg, ih]

/-- Method matching on a non-empty allow-list is case-insensitive
membership (uppercase-normalized equality). -/
theorem matchMethod_iff (method : String) (ms : List String) (h : ms ≠ []) :
    matchMethod method ms = true ↔
      ∃ mm ∈ ms, goToUpper method = goToUpper mm := by
  have h0 : ms.isEmpty = false := by
    cases ms with
    | nil => simp at h
    | cons a l => rfl
  simp [matchMethod, h0, List.any_eq_true, beq_iff_eq]

/-! ### C1: retryable-error classification -/

/-- Claim C1 (code bug): the specification says an error is retryable iff its
message contains one of seven phrases, with a case-insensitive test; the
source lowercases the message but searches for the mixed-case needle
`"unexpected EOF"`, which can never occur in a lowercased string, so
errors carrying that phrase are wrongly classified non-retryable.  The
other six (all-lowercase) phrases behave as the specification says, and
the classifier is a pure function, so idempotence is immediate. -/
theorem isRetryableError_unexpectedEOF_bug :
    isRetryableError "unexpected EOF" = false ∧
    retryableSpec "unexpected EOF" = true ∧
    isRetryableError "read tcp: connection reset by peer" = true ∧
    isRetryableError "lookup x: no such host" = true ∧
    isRetryableError "context deadline exceeded: Timeout" = true ∧
    isRetryableError "network is unreachable" = true ∧
    isRetryableError "dial tcp: connection refused" = true ∧
    isRetryableError "temporary failure in name resolution" = true := by
  decide

/-! ### C2: route matching -/

/-- Claim C2: the Router scans the route table in declared order and takes
the first route whose path matches (a `*`-suffixed match-path matches
exactly the request paths extending its stem, so `/a/*` matches `/a/b`
and `/a/` but not `/a`; any other match-path matches by equality) and
whose method matches (an empty allow-list matches everything, otherwise
case-insensitive membership); a miss yields 404 with body
`Not Found`. -/
theorem routerMatching :
    (∀ (targets : List ProxyTarget) (path method : String),
      findTarget targets path method =
        targets.find? fun t => matchPath path t.path &&
          matchMethod method t.methods) ∧
    (∀ requestPath targetPath : String, goEndsWith targetPath "*" = true →
      (matchPath requestPath targetPath = true ↔
        goStartsWith requestPath (goTrimSuffix targetPath "*") = true)) ∧
    (∀ requestPath targetPath : String, goEndsWith targetPath "*" = false →
      (matchPath requestPath targetPath = true ↔ requestPath = targetPath)) ∧
    (matchPath "/a/b" "/a/*" = true ∧ matchPath "/a/" "/a/*" = true ∧
      matchPath "/a" "/a/*" = false) ∧
    (∀ method : String, matchMethod method [] = true) ∧
    (∀ (method : String) (ms : List String), ms ≠ [] →
      (matchMethod method ms = true ↔
        ∃ mm ∈ ms, goToUpper method = goToUpper mm)) ∧
    (∀ (targets : List ProxyTarget) (m : HealthMap) (path method : String),
      findTarget targets path method = none →
      serveRoute targets m path method =
        ServeOutcome.httpError 404 "Not Found") := by
  refine ⟨findTarget_eq_find?, ?_, ?_, by decide, fun _ => rfl,
    matchMethod_iff, ?_⟩
  · intro rp tp h
    simp [matchPath, h]
  · intro rp tp h
    simp [matchPath, h]
  · intro targets m path method h
    simp [serveRoute, h]

/-- Closed instance of `routerMatching` with every hypothesis
discharged on concrete inputs. -/
theorem routerMatching_witness :
    (matchPath "/api/users" "/api/*" = true ↔
      goStartsWith "/api/users" (goTrimSuffix "/api/*" "*") = true) ∧
    (matchPath "/ping" "/ping" = true ↔ "/ping" = "/ping") ∧
    (matchMethod "get" ["POST", "GET"] = true ↔
      ∃ mm ∈ ["POST", "GET"], goToUpper "get" = goToUpper mm) ∧
    serveRoute [] mapNone "/nope" "GET" =
      ServeOutcome.httpError 404 "Not Found" := by
  obtain ⟨h1, h2, h3, h4, h5, h6, h7⟩ := routerMatching
  exact ⟨h2 "/api/users" "/api/*" (by decide),
    h3 "/ping" "/ping" (by decide),
    h6 "get" ["POST", "GET"] (by decide),
    h7 [] mapNone "/nope" "GET" rfl⟩

/-! ### C4: final-URL construction -/

/-- Claim C4: for a wildcard route the final path is the upstream base path
with one trailing slash trimmed followed by the full client path; for
an exact route it is exactly the upstream base path; the raw query is
always carried over; and the concrete scenario of the specification
(`/api/*`, upstream `http://u/v`, request `/api/users/42`) lands on
`/v/api/users/42`. -/
theorem buildTargetURL_correct :
    (∀ (requestURL : GoURL) (target : ProxyTarget),
      (buildTargetURL requestURL target).rawQuery = requestURL.rawQuery) ∧
    (∀ (requestURL : GoURL) (target : ProxyTarget),
      goEndsWith target.path "*" = true →
      (buildTargetURL requestURL target).path =
        goTrimSuffix (goParseURL target.targetURL).path "/" ++
          requestURL.path) ∧
    (∀ (requestURL : GoURL) (target : ProxyTarget),
      goEndsWith target.path "*" = false →
      (buildTargetURL requestURL target).path =
        (goParseURL target.targetURL).path) ∧
    ((buildTargetURL exampleRequestURL apiTarget).path =
        "/v/api/users/42" ∧
      (buildTargetURL exampleRequestURL apiTarget).host = "u" ∧
      (buildTargetURL exampleRequestURL apiTarget).scheme = "http") := by
  refine ⟨fun r t => rfl, ?_, ?_, by decide⟩
  · intro r t h
    simp only [buildTargetURL, h, if_true]
    by_cases hb : (goTrimSuffix (goParseURL t.targetURL).path "/" == "") = true
    · rw [beq_iff_eq] at hb
      simp [hb, string_empty_append]
    · simp only [Bool.not_eq_true] at hb
      simp [hb]
  · intro r t h
    simp [buildTargetURL, h]

/-- Closed instance of `buildTargetURL_correct` with the hypotheses
discharged on concrete routes. -/
theorem buildTargetURL_correct_witness :
    (buildTargetURL exampleRequestURL apiTarget).path =
      goTrimSuffix (goParseURL apiTarget.targetURL).path "/" ++
        exampleRequestURL.path ∧
    (buildTargetURL exampleRequestURL soloTarget).path =
      (goParseURL soloTarget.targetURL).path := by
  obtain ⟨h1, h2, h3, h4⟩ := buildTargetURL_correct
  exact ⟨h2 exampleRequestURL apiTarget (by decide),
    h3 exampleRequestURL soloTarget (by decide)⟩

/-! ### C8: statistics updates and snapshots -/

/-- Reflexivity of the counter order. -/
theorem statsLE_refl (s : Statistics) : statsLE s s :=
  ⟨le_refl _, le_refl _, le_refl _, fun _ => le_refl _, fun _ => le_refl _⟩

/-- Transitivity of the counter order. -/
theorem statsLE_trans {a b c : Statistics} (h1 : statsLE a b)
    (h2 : statsLE b c) : statsLE a c :=
  ⟨le_trans h1.1 h2.1, le_trans h1.2.1 h2.2.1, le_trans h1.2.2.1 h2.2.2.1,
    fun k => le_trans (h1.2.2.2.1 k) (h2.2.2.2.1 k),
    fun k => le_trans (h1.2.2.2.2 k) (h2.2.2.2.2 k)⟩

/-- One `updateStats` never decreases a counter. -/
theorem statsLE_step (s : Statistics) (mg : LogMessage) :
    statsLE s (updateStats s mg) := by
  unfold statsLE updateStats
  by_cases h : 200 ≤ mg.statusCode ∧ mg.statusCode < 400 <;>
    simp [h] <;>
    refine ⟨?_, ?_⟩ <;>
    intro k <;>
    split <;>
    omega

/-- Claim C8: a broadcast counts the record under the statistics state and
attaches the post-update snapshot, so the attached total includes the
record itself, its method and status code are counted, and it falls in
the success bucket iff the status is in `[200, 400)`; across any
sequence of broadcasts every counter is monotonically
non-decreasing. -/
theorem broadcast_counts :
    (∀ (stats : Statistics) (message : LogMessage),
      (broadcast stats message).2.stats = some (broadcast stats message).1 ∧
      (broadcast stats message).1.totalRequests = stats.totalRequests + 1 ∧
      (broadcast stats message).1.methodCounts message.method =
        stats.methodCounts message.method + 1 ∧
      (broadcast stats message).1.statusCodeCounts message.statusCode =
        stats.statusCodeCounts message.statusCode + 1 ∧
      (200 ≤ message.statusCode ∧ message.statusCode < 400 →
        (broadcast stats message).1.successRequests =
          stats.successRequests + 1 ∧
        (broadcast stats message).1.errorRequests = stats.errorRequests) ∧
      (¬(200 ≤ message.statusCode ∧ message.statusCode < 400) →
        (broadcast stats message).1.errorRequests =
          stats.errorRequests + 1 ∧
        (broadcast stats message).1.successRequests =
          stats.successRequests)) ∧
    (∀ (stats : Statistics) (messages : List LogMessage),
      statsLE stats (broadcastAll stats messages)) := by
  constructor
  · intro stats message
    refine ⟨rfl, ?_, ?_, ?_, ?_, ?_⟩ <;>
      unfold broadcast updateStats <;>
      by_cases h : 200 ≤ message.statusCode ∧ message.statusCode < 400 <;>
      simp [h]
  · intro stats messages
    induction messages generalizing stats with
    | nil => exact statsLE_refl stats
    | cons mg rest ih =>
      exact statsLE_trans (statsLE_step stats mg) (ih (broadcast stats mg).1)

/-- Closed instance of `broadcast_counts` with the status-range
hypothesis discharged on a concrete 200 record. -/
theorem broadcast_counts_witness :
    (broadcast emptyStats sampleMsg).1.totalRequests = 1 ∧
    (broadcast emptyStats sampleMsg).1.successRequests = 1 ∧
    (broadcast emptyStats sampleMsg).1.errorRequests = 0 ∧
    statsLE emptyStats (broadcastAll emptyStats [sampleMsg]) := by
  obtain ⟨h1, h2⟩ := broadcast_counts
  obtain ⟨ha, hb, hc, hd, he, hf⟩ := h1 emptyStats sampleMsg
  obtain ⟨hs, herr⟩ := he (by decide)
  exact ⟨hb, hs, herr, h2 emptyStats [sampleMsg]⟩

/-! ### C5: health-probe strategy -/

/-- Claim C5 (amended): the probe reports healthy iff either some attempted
path — the configured path when non-empty and not `/`, then `/` but
only when the configured path is not `/`, then the well-known paths
skipping the configured one — yields a status in `[200, 400)`, or the
final re-attempt of the configured path yields exactly 404.  (The
source does not check that every attempt produced 404, only that the
configured-path attempt did, and it skips `/` entirely when the
configured path is `/`.) -/
theorem performHealthCheck_iff (net : Network) (baseURL healthPath : String) :
    performHealthCheck net baseURL healthPath = true ↔
      (((healthAttemptPaths healthPath).any
          fun p => (tryHealthCheckURL net baseURL p).1) = true ∨
        (tryHealthCheckURL net baseURL healthPath).2 = 404) := by
  cases h1 : healthPath != "" <;> cases h2 : healthPath != "/" <;>
    cases hb1 : (tryHealthCheckURL net baseURL healthPath).1 <;>
    cases hb2 : (tryHealthCheckURL net baseURL "/").1 <;>
    cases hb3 : ((commonHealthPaths.filter fun p => p != healthPath).any
        fun p => (tryHealthCheckURL net baseURL p).1) <;>
    simp_all [performHealthCheck, healthAttemptPaths, List.any_append,
      beq_iff_eq]

/-- Counterexample to C5 as stated: with the configured path `/x`
answering 404 and every other path answering 500, no attempt succeeds
and not every attempt produced 404, yet the probe reports healthy
(the source only re-checks the configured path for 404). -/
theorem performHealthCheck_counterexample :
    performHealthCheck cNet "http://u" "/x" = true ∧
    ((healthAttemptPaths "/x").any
      fun p => (tryHealthCheckURL cNet "http://u" p).1) = false ∧
    ((healthAttemptPaths "/x").all
      fun p => (tryHealthCheckURL cNet "http://u" p).2 == 404) = false := by
  decide

/-! ### C7: URLHealth invariants and the rolling average -/

/-- Field-level characterization of one health-status update (the
rolling-average recurrence folds the first-success branch into the
general integer-division formula). -/
theorem updateHealthStatus_fields (h : URLHealth) (healthy : Bool)
    (rt : Nat) :
    (updateHealthStatus h healthy rt).totalChecks = h.totalChecks + 1 ∧
    (updateHealthStatus h healthy rt).successChecks =
      (if 0 < rt ∧ healthy = true then h.successChecks + 1
       else h.successChecks) ∧
    (updateHealthStatus h healthy rt).maxTime =
      (if 0 < rt ∧ h.maxTime < rt then rt else h.maxTime) ∧
    (updateHealthStatus h healthy rt).averageTime =
      (if 0 < rt ∧ healthy = true then
        (h.averageTime * h.successChecks + rt) / (h.successChecks + 1)
       else h.averageTime) := by
  cases healthy <;> by_cases hrt : 0 < rt <;>
    simp [updateHealthStatus, hrt] <;>
    split_ifs <;>
    simp_all

/-- Claim C7 (amended): after any update `successful_checks ≤ total_checks`
and `rolling_average ≤ max_time` (the average is a `Nat`, hence
non-negative); both initial records satisfy the invariant; and on a
successful probe with positive response time the average is recomputed
by the recurrence `avg ← (avg·(n−1) + t) / n` in integer (truncating)
division, with `n` the new successful count — which only approximates
the exact arithmetic mean. -/
theorem updateHealthStatus_invariant :
    (∀ (h : URLHealth) (healthy : Bool) (rt : Nat),
      healthInvariant h → healthInvariant (updateHealthStatus h healthy rt)) ∧
    (∀ url : String, healthInvariant (initializeURLHealth url) ∧
      healthInvariant (newURLHealth url)) ∧
    (∀ (h : URLHealth) (rt : Nat), 0 < rt →
      (updateHealthStatus h true rt).totalChecks = h.totalChecks + 1 ∧
      (updateHealthStatus h true rt).successChecks = h.successChecks + 1 ∧
      (updateHealthStatus h true rt).errorCount = 0 ∧
      (updateHealthStatus h true rt).averageTime =
        (h.averageTime * h.successChecks + rt) / (h.successChecks + 1)) := by
  refine ⟨?_, ?_, ?_⟩
  · intro h healthy rt hinv
    obtain ⟨hf1, hf2, hf3, hf4⟩ := updateHealthStatus_fields h healthy rt
    obtain ⟨hsc, havg⟩ := hinv
    constructor
    · rw [hf1, hf2]
      split_ifs <;> omega
    · rw [hf3, hf4]
      by_cases hcase : 0 < rt ∧ healthy = true
      · rw [if_pos hcase]
        have hmax : h.maxTime ≤ (if 0 < rt ∧ h.maxTime < rt then rt
            else h.maxTime) := by
          split_ifs <;> omega
        have hrtle : rt ≤ (if 0 < rt ∧ h.maxTime < rt then rt
            else h.maxTime) := by
          split_ifs <;> omega
        set M := (if 0 < rt ∧ h.maxTime < rt then rt else h.maxTime) with hM
        have hle : h.averageTime * h.successChecks + rt ≤
            M * (h.successChecks + 1) := by
          have h1 : h.averageTime * h.successChecks ≤
              M * h.successChecks :=
            Nat.mul_le_mul_right _ (le_trans havg hmax)
          calc h.averageTime * h.successChecks + rt
              ≤ M * h.successChecks + M := Nat.add_le_add h1 hrtle
            _ = M * (h.successChecks + 1) := by ring
        calc (h.averageTime * h.successChecks + rt) / (h.successChecks + 1)
            ≤ M * (h.successChecks + 1) / (h.successChecks + 1) :=
              Nat.div_le_div_right hle
          _ = M := Nat.mul_div_cancel _ (Nat.succ_pos _)
      · rw [if_neg hcase]
        split_ifs <;> omega
  · intro url
    exact ⟨⟨le_refl 0, le_refl 0⟩, ⟨le_refl 0, le_refl 0⟩⟩
  · intro h rt hrt
    obtain ⟨hf1, hf2, hf3, hf4⟩ := updateHealthStatus_fields h true rt
    refine ⟨hf1, ?_, rfl, ?_⟩
    · rw [hf2, if_pos ⟨hrt, rfl⟩]
    · rw [hf4, if_pos ⟨hrt, rfl⟩]

/-- Counterexample to the exact-mean clause of C7: two successful probes
with times 1 and 2 (nanoseconds) leave a rolling average of 1, but the
arithmetic mean of the probe times is 3/2. -/
theorem updateHealthStatus_mean_counterexample :
    (updateHealthStatus (updateHealthStatus (initializeURLHealth "a") true 1)
        true 2).successChecks = 2 ∧
    (updateHealthStatus (updateHealthStatus (initializeURLHealth "a") true 1)
        true 2).averageTime * 2 ≠ 1 + 2 := by
  decide

/-- Closed instance of `updateHealthStatus_invariant` with its
hypotheses discharged on a concrete healthy record and probe. -/
theorem updateHealthStatus_invariant_witness :
    healthInvariant (updateHealthStatus fastHealthy true 10) ∧
    (updateHealthStatus fastHealthy true 10).averageTime =
      (fastHealthy.averageTime * fastHealthy.successChecks + 10) /
        (fastHealthy.successChecks + 1) := by
  obtain ⟨h1, h2, h3⟩ := updateHealthStatus_invariant
  exact ⟨h1 fastHealthy true 10 (by constructor <;> decide),
    (h3 fastHealthy 10 (by decide)).2.2.2⟩

/-! ### C9: target_url normalization -/

/-- Claim C9 (amended): starting from the empty URL list YAML decoding
produces, normalization leaves exactly the trimmed non-empty
comma-separated entries when `target_url` contains a comma, the single
untrimmed `target_url` when it is non-empty without a comma, and the
empty list when `target_url` is empty — so the list is non-empty iff
`target_url` is non-empty and, when it contains a comma, at least one
entry is not pure whitespace. -/
theorem processTarget_urls (t : ProxyTarget) (h0 : t.targetURLs = []) :
    (processTarget t).targetURLs =
      (if t.targetURL = "" then []
       else if goContains t.targetURL "," = true then
         ((goSplitOn t.targetURL ",").map (fun u => goTrimSpace u)).filter
           (fun u => u != "")
       else [t.targetURL]) ∧
    ((processTarget t).targetURLs ≠ [] ↔
      (t.targetURL ≠ "" ∧ (goContains t.targetURL "," = true →
        ∃ u ∈ goSplitOn t.targetURL ",", goTrimSpace u ≠ ""))) := by
  have hmain : (processTarget t).targetURLs =
      (if t.targetURL = "" then []
       else if goContains t.targetURL "," = true then
         ((goSplitOn t.targetURL ",").map (fun u => goTrimSpace u)).filter
           (fun u => u != "")
       else [t.targetURL]) := by
    by_cases he : t.targetURL = ""
    · simp only [processTarget, he, h0]
      norm_num
      split_ifs <;> simp_all
    · by_cases hc : goContains t.targetURL "," = true
      · simp only [processTarget, h0, hc]
        simp only [bne_iff_ne, ne_eq, he, not_false_eq_true, if_true,
          List.nil_append]
        norm_num [he, hc]
        split_ifs <;> simp_all
      · simp only [processTarget, h0, hc]
        simp only [bne_iff_ne, ne_eq, he, not_false_eq_true, if_true,
          Bool.false_eq_true, if_false]
        norm_num [he, hc]
        split_ifs <;> simp_all
  refine ⟨hmain, ?_⟩
  rw [hmain]
  by_cases he : t.targetURL = ""
  · simp [he]
  · by_cases hc : goContains t.targetURL "," = true
    · simp only [he, if_false, hc, if_true, ne_eq, not_false_eq_true,
        true_and, forall_const]
      rw [List.filter_eq_nil_iff]
      push_neg
      constructor
      · rintro ⟨a, ha, hne⟩
        obtain ⟨u, hu, rfl⟩ := List.mem_map.mp ha
        exact ⟨u, hu, by simpa [bne_iff_ne] using hne⟩
      · rintro ⟨u, hu, hne⟩
        exact ⟨goTrimSpace u, List.mem_map.mpr ⟨u, hu, rfl⟩,
          by simpa [bne_iff_ne] using hne⟩
    · simp [he, hc]

/-- Counterexample to C9 as stated: a route whose `target_url` is a
lone comma loads successfully (the loader performs no validation) yet
normalizes to an empty URL list; and in the no-comma case the single
kept entry is not trimmed. -/
theorem processTarget_counterexample :
    (processTarget commaOnlyTarget).targetURLs = [] ∧
    commaOnlyTarget.targetURL ≠ "" ∧
    (processTarget spacedURLTarget).targetURLs = [" u "] ∧
    goTrimSpace " u " = "u" := by
  decide

/-- Closed instance of `processTarget_urls` with all hypotheses
discharged on a concrete comma-separated route. -/
theorem processTarget_urls_witness :
    (processTarget pairURLTarget).targetURLs =
      (if pairURLTarget.targetURL = "" then []
       else if goContains pairURLTarget.targetURL "," = true then
         ((goSplitOn pairURLTarget.targetURL ",").map
           (fun u => goTrimSpace u)).filter (fun u => u != "")
       else [pairURLTarget.targetURL]) ∧
    (processTarget pairURLTarget).targetURLs ≠ [] := by
  obtain ⟨h1, h2⟩ := processTarget_urls pairURLTarget rfl
  exact ⟨h1, h2.mpr (by decide)⟩

/-! ### C10: one URL per request across all retries -/

/-- Every URL attempted by the retry loop is the one rebuilt from the
same fixed request URL and target. -/
theorem retryAttempts_urls (oracle : AttemptOracle) (requestURL : GoURL)
    (target : ProxyTarget) :
    ∀ (fuel attempt : Nat),
      ∀ u ∈ (retryAttempts oracle requestURL target attempt fuel).1,
        u = buildTargetURL requestURL target := by
  intro fuel
  induction fuel with
  | zero =>
    intro attempt u hu
    simp [retryAttempts] at hu
  | succ f ih =>
    intro attempt u hu
    cases ho : oracle attempt with
    | none =>
      simpa [retryAttempts, ho] using hu
    | some err =>
      by_cases hr : isRetryableError err = true
      · by_cases hf : f = 0
        · simpa [retryAttempts, ho, hr, hf] using hu
        · rw [retryAttempts] at hu
          simp only [ho, hr, Bool.not_true, Bool.false_eq_true, if_false,
            hf, List.mem_cons] at hu
          exact hu.elim (fun h => h) (fun h => ih (attempt + 1) u h)
      · simp only [Bool.not_eq_true] at hr
        simpa [retryAttempts, ho, hr] using hu

/-- The retry loop runs at least one and at most `fuel` attempts. -/
theorem retryAttempts_length (oracle : AttemptOracle) (requestURL : GoURL)
    (target : ProxyTarget) :
    ∀ (fuel attempt : Nat),
      (retryAttempts oracle requestURL target attempt fuel).1.length ≤ fuel ∧
      (0 < fuel →
        (retryAttempts oracle requestURL target attempt fuel).1 ≠ []) := by
  intro fuel
  induction fuel with
  | zero =>
    intro attempt
    exact ⟨by simp [retryAttempts], fun h => absurd h (lt_irrefl 0)⟩
  | succ f ih =>
    intro attempt
    cases ho : oracle attempt with
    | none => simp [retryAttempts, ho]
    | some err =>
      by_cases hr : isRetryableError err = true
      · by_cases hf : f = 0
        · simp [retryAttempts, ho, hr, hf]
        · have := ih (attempt + 1)
          refine ⟨?_, ?_⟩
          · simp [retryAttempts, ho, hr, hf]
            omega
          · intro _
            simp [retryAttempts, ho, hr, hf]
      · simp only [Bool.not_eq_true] at hr
        simp [retryAttempts, ho, hr]

/-- Claim C10: the upstream URL is chosen once, by health-based selection,
before the first attempt: a dispatched request carries the target whose
`targetURL` was fixed to `selectFastestURL` of the matched route, and
every attempt of the retry loop (which never consults the health
registry) re-derives the same URL from that fixed target. -/
theorem retry_fixed_target :
    (∀ (oracle : AttemptOracle) (maxRetries : Nat) (requestURL : GoURL)
        (target : ProxyTarget),
      ∀ u ∈ (forwardRequestWithRetry oracle maxRetries requestURL target).1,
        u = buildTargetURL requestURL target) ∧
    (∀ (oracle : AttemptOracle) (maxRetries : Nat) (requestURL : GoURL)
        (target : ProxyTarget),
      (forwardRequestWithRetry oracle maxRetries requestURL target).1 ≠ [] ∧
      (forwardRequestWithRetry oracle maxRetries requestURL
        target).1.length ≤ maxRetries + 1) ∧
    (∀ (targets : List ProxyTarget) (m : HealthMap) (path method : String)
        (t : ProxyTarget) (u : String),
      serveRoute targets m path method = ServeOutcome.forward t u →
      ∃ t0, findTarget targets path method = some t0 ∧
        u = selectFastestURL m t0 ∧
        t = { t0 with targetURL := selectFastestURL m t0 }) := by
  refine ⟨?_, ?_, ?_⟩
  · intro oracle maxRetries requestURL target
    exact retryAttempts_urls oracle requestURL target (maxRetries + 1) 0
  · intro oracle maxRetries requestURL target
    obtain ⟨h1, h2⟩ :=
      retryAttempts_length oracle requestURL target (maxRetries + 1) 0
    exact ⟨h2 (Nat.succ_pos _), h1⟩
  · intro targets m path method t u h
    cases hft : findTarget targets path method with
    | none => simp [serveRoute, hft] at h
    | some t0 =>
      by_cases hsel : (selectFastestURL m t0 == "") = true
      · simp [serveRoute, hft, hsel] at h
      · simp only [Bool.not_eq_true] at hsel
        simp only [serveRoute, hft, hsel, Bool.false_eq_true, if_false,
          ServeOutcome.forward.injEq] at h
        exact ⟨t0, rfl, h.2.symm, h.1.symm⟩

/-- Closed instance of `retry_fixed_target` with the membership and
dispatch hypotheses discharged on concrete inputs: three failing
attempts all target the same built URL, and the dispatched target of a
concrete routed request is the one fixed by selection. -/
theorem retry_fixed_target_witness :
    buildTargetURL exampleRequestURL apiTarget =
      buildTargetURL exampleRequestURL apiTarget ∧
    (forwardRequestWithRetry failOracle 2 exampleRequestURL apiTarget).1 ≠
      [] ∧
    (∃ t0, findTarget [soloTarget] "/x" "GET" = some t0 ∧
      "http://u" = selectFastestURL mapSoloUnhealthy t0 ∧
      soloTarget =
        { t0 with targetURL := selectFastestURL mapSoloUnhealthy t0 }) := by
  obtain ⟨h1, h2, h3⟩ := retry_fixed_target
  exact ⟨h1 failOracle 2 exampleRequestURL apiTarget
      (buildTargetURL exampleRequestURL apiTarget) (by decide),
    (h2 failOracle 2 exampleRequestURL apiTarget).1,
    h3 [soloTarget] mapSoloUnhealthy "/x" "GET" soloTarget "http://u"
      (by decide)⟩

/-! ### C3 and C6: fastest-healthy selection and the 503 condition -/

/-- If some URL of the list has no health record, the selection loop
early-returns one such URL. -/
theorem gfhuLoop_missing (m : HealthMap) :
    ∀ (urls : List String) (f : String) (ft hc : Nat),
      (∃ u ∈ urls, m u = none) →
      ∃ u ∈ urls, m u = none ∧ gfhuLoop m urls f ft hc = Sum.inl u := by
  intro urls
  induction urls with
  | nil =>
    intro f ft hc hex
    obtain ⟨u, hu, _⟩ := hex
    exact absurd hu (List.not_mem_nil u)
  | cons url rest ih =>
    intro f ft hc hex
    cases hm : m url with
    | none =>
      exact ⟨url, List.mem_cons_self url rest, hm, by simp [gfhuLoop, hm]⟩
    | some h =>
      have hex2 : ∃ u ∈ rest, m u = none := by
        obtain ⟨u, hu, hmu⟩ := hex
        rcases List.mem_cons.mp hu with rfl | hu2
        · rw [hm] at hmu
          exact absurd hmu (by simp)
        · exact ⟨u, hu2, hmu⟩
      by_cases hh : h.isHealthy = true
      · by_cases hlt :
            (if 0 < h.averageTime then h.averageTime else h.responseTime) < ft
        · obtain ⟨u, hu, hmu, heq⟩ := ih url
            (if 0 < h.averageTime then h.averageTime else h.responseTime)
            (hc + 1) hex2
          refine ⟨u, List.mem_cons_of_mem url hu, hmu, ?_⟩
          rw [gfhuLoop, hm]
          simp only [hh, if_true, hlt]
          exact heq
        · obtain ⟨u, hu, hmu, heq⟩ := ih f ft (hc + 1) hex2
          refine ⟨u, List.mem_cons_of_mem url hu, hmu, ?_⟩
          rw [gfhuLoop, hm]
          simp only [hh, if_true, hlt, if_false]
          exact heq
      · simp only [Bool.not_eq_true] at hh
        obtain ⟨u, hu, hmu, heq⟩ := ih f ft hc hex2
        refine ⟨u, List.mem_cons_of_mem url hu, hmu, ?_⟩
        rw [gfhuLoop, hm]
        simp only [hh, Bool.false_eq_true, if_false]
        exact heq

/-- Invariant of the selection loop when every URL is recorded: it
completes, counts exactly the healthy URLs, its running minimum only
decreases, bounds every healthy metric, and the selected URL is either
the untouched accumulator or a healthy URL achieving the minimum. -/
theorem gfhuLoop_recorded (m : HealthMap) :
    ∀ (urls : List String) (f : String) (ft hc : Nat),
      (∀ u ∈ urls, (m u).isSome = true) →
      ∃ f2 ft2 hc2,
        gfhuLoop m urls f ft hc = Sum.inr (f2, ft2, hc2) ∧
        hc2 = hc + (urls.filter fun u => healthyRec m u).length ∧
        ft2 ≤ ft ∧
        (∀ u ∈ urls, healthyRec m u = true → ft2 ≤ metricOf m u) ∧
        ((f2 = f ∧ ft2 = ft) ∨
          (∃ u ∈ urls, healthyRec m u = true ∧ f2 = u ∧
            ft2 = metricOf m u)) := by
  intro urls
  induction urls with
  | nil =>
    intro f ft hc _
    exact ⟨f, ft, hc, rfl, by simp, le_refl ft, by simp, Or.inl ⟨rfl, rfl⟩⟩
  | cons url rest ih =>
    intro f ft hc hrec
    have hmu : (m url).isSome = true := hrec url (List.mem_cons_self url rest)
    obtain ⟨h, hm⟩ := Option.isSome_iff_exists.mp hmu
    have hrec2 : ∀ u ∈ rest, (m u).isSome = true :=
      fun u hu => hrec u (List.mem_cons_of_mem url hu)
    have hmetric : metricOf m url =
        (if 0 < h.averageTime then h.averageTime else h.responseTime) := by
      simp [metricOf, hm, preferredMetric]
    have hhealthy : healthyRec m url = h.isHealthy := by
      simp [healthyRec, hm]
    by_cases hh : h.isHealthy = true
    · by_cases hlt :
          (if 0 < h.averageTime then h.averageTime else h.responseTime) < ft
      · obtain ⟨f2, ft2, hc2, heq, hcnt, hle, hall, hchar⟩ := ih url
          (if 0 < h.averageTime then h.averageTime else h.responseTime)
          (hc + 1) hrec2
        refine ⟨f2, ft2, hc2, ?_, ?_, ?_, ?_, ?_⟩
        · rw [gfhuLoop, hm]
          simp only [hh, if_true, hlt]
          exact heq
        · rw [hcnt, List.filter_cons_of_pos (by rw [hhealthy]; exact hh)]
          simp only [List.length_cons]
          omega
        · exact le_trans hle (le_of_lt hlt)
        · intro u hu hhu
          rcases List.mem_cons.mp hu with rfl | hu2
          · rw [hmetric]
            exact hle
          · exact hall u hu2 hhu
        · rcases hchar with ⟨hf2, hft2⟩ | ⟨u, hu, h1, h2, h3⟩
          · refine Or.inr ⟨url, List.mem_cons_self url rest, ?_, hf2, ?_⟩
            · rw [hhealthy]; exact hh
            · rw [hft2, hmetric]
          · exact Or.inr ⟨u, List.mem_cons_of_mem url hu, h1, h2, h3⟩
      · obtain ⟨f2, ft2, hc2, heq, hcnt, hle, hall, hchar⟩ :=
          ih f ft (hc + 1) hrec2
        refine ⟨f2, ft2, hc2, ?_, ?_, hle, ?_, ?_⟩
        · rw [gfhuLoop, hm]
          simp only [hh, if_true, hlt, if_false]
          exact heq
        · rw [hcnt, List.filter_cons_of_pos (by rw [hhealthy]; exact hh)]
          simp only [List.length_cons]
          omega
        · intro u hu hhu
          rcases List.mem_cons.mp hu with rfl | hu2
          · rw [hmetric]
            exact le_trans hle (not_lt.mp hlt)
          · exact hall u hu2 hhu
        · rcases hchar with ⟨hf2, hft2⟩ | ⟨u, hu, h1, h2, h3⟩
          · exact Or.inl ⟨hf2, hft2⟩
          · exact Or.inr ⟨u, List.mem_cons_of_mem url hu, h1, h2, h3⟩
    · simp only [Bool.not_eq_true] at hh
      obtain ⟨f2, ft2, hc2, heq, hcnt, hle, hall, hchar⟩ := ih f ft hc hrec2
      refine ⟨f2, ft2, hc2, ?_, ?_, hle, ?_, ?_⟩
      · rw [gfhuLoop, hm]
        simp only [hh, Bool.false_eq_true, if_false]
        exact heq
      · rw [hcnt, List.filter_cons_of_neg (by rw [hhealthy, hh]; simp)]
      · intro u hu hhu
        rcases List.mem_cons.mp hu with rfl | hu2
        · rw [hhealthy, hh] at hhu
          exact absurd hhu (by simp)
        · exact hall u hu2 hhu
      · rcases hchar with ⟨hf2, hft2⟩ | ⟨u, hu, h1, h2, h3⟩
        · exact Or.inl ⟨hf2, hft2⟩
        · exact Or.inr ⟨u, List.mem_cons_of_mem url hu, h1, h2, h3⟩

/-- With every URL recorded and none healthy, the selector falls back
to the first URL of the list. -/
theorem GetFastestHealthyURL_fallback (m : HealthMap) (url : String)
    (rest : List String)
    (hrec : ∀ u ∈ url :: rest, (m u).isSome = true)
    (hunh : ∀ u ∈ url :: rest, healthyRec m u = false) :
    GetFastestHealthyURL m (url :: rest) = url := by
  obtain ⟨f2, ft2, hc2, heq, hcnt, _, _, _⟩ :=
    gfhuLoop_recorded m (url :: rest) "" timeHour 0 hrec
  have hfil : ((url :: rest).filter fun u => healthyRec m u) = [] :=
    List.filter_eq_nil_iff.mpr fun u hu => by simp [hunh u hu]
  have hz : hc2 = 0 := by rw [hcnt, hfil]; rfl
  simp [GetFastestHealthyURL, heq, hz]

/-- Claim C3 (amended): the selector returns a recordless URL when one
exists; with all URLs recorded and none healthy it returns the first
URL; with all recorded and some healthy URL of preferred metric below
one hour (the initialization constant of the running minimum) it
returns a healthy URL minimizing the preferred metric; and a route
with exactly one URL resolves to that URL without consulting health. -/
theorem selection_fastest_healthy :
    (∀ (m : HealthMap) (urls : List String), (∃ u ∈ urls, m u = none) →
      ∃ u ∈ urls, m u = none ∧ GetFastestHealthyURL m urls = u) ∧
    (∀ (m : HealthMap) (url : String) (rest : List String),
      (∀ u ∈ url :: rest, (m u).isSome = true) →
      (∀ u ∈ url :: rest, healthyRec m u = false) →
      GetFastestHealthyURL m (url :: rest) = url) ∧
    (∀ (m : HealthMap) (urls : List String) (u0 : String),
      (∀ u ∈ urls, (m u).isSome = true) → u0 ∈ urls →
      healthyRec m u0 = true → metricOf m u0 < timeHour →
      ∃ w, GetFastestHealthyURL m urls = w ∧ w ∈ urls ∧
        healthyRec m w = true ∧
        ∀ v ∈ urls, healthyRec m v = true → metricOf m w ≤ metricOf m v) ∧
    (∀ (m m2 : HealthMap) (t : ProxyTarget), t.targetURLs.length = 1 →
      selectFastestURL m t = t.targetURLs.headD "" ∧
      selectFastestURL m t = selectFastestURL m2 t) := by
  refine ⟨?_, GetFastestHealthyURL_fallback, ?_, ?_⟩
  · intro m urls hex
    obtain ⟨u, hu, hmu, heq⟩ := gfhuLoop_missing m urls "" timeHour 0 hex
    exact ⟨u, hu, hmu, by simp [GetFastestHealthyURL, heq]⟩
  · intro m urls u0 hrec hu0 hh0 hlt
    obtain ⟨f2, ft2, hc2, heq, hcnt, hle, hall, hchar⟩ :=
      gfhuLoop_recorded m urls "" timeHour 0 hrec
    have hpos : 0 < (urls.filter fun u => healthyRec m u).length :=
      List.length_pos.mpr
        (List.ne_nil_of_mem (List.mem_filter.mpr ⟨hu0, hh0⟩))
    have hnz : hc2 ≠ 0 := by omega
    rcases hchar with ⟨hf2, hft2⟩ | ⟨w, hw, hwh, hwf, hwm⟩
    · exfalso
      have := hall u0 hu0 hh0
      omega
    · refine ⟨w, ?_, hw, hwh, ?_⟩
      · rw [← hwf]
        simp [GetFastestHealthyURL, heq, hnz]
      · intro v hv hhv
        rw [← hwm]
        exact hall v hv hhv
  · intro m m2 t h1
    constructor <;> simp [selectFastestURL, h1]

/-- Counterexample to C3 as stated: a single recorded, healthy URL
whose preferred metric equals one hour is never selected — the running
minimum starts at one hour and only strictly smaller metrics replace
it — so the selector returns the empty string instead of the healthy
minimizer. -/
theorem selection_hour_counterexample :
    GetFastestHealthyURL mapSlow ["a"] = "" ∧
    (mapSlow "a").isSome = true ∧
    healthyRec mapSlow "a" = true ∧
    "" ∉ (["a"] : List String) := by
  decide

/-- Closed instance of `selection_fastest_healthy` with every
hypothesis discharged on concrete registries. -/
theorem selection_fastest_healthy_witness :
    (∃ u ∈ ["z"], mapNone u = none ∧
      GetFastestHealthyURL mapNone ["z"] = u) ∧
    GetFastestHealthyURL mapUnhealthy ["b"] = "b" ∧
    (∃ w, GetFastestHealthyURL mapFast ["c"] = w ∧ w ∈ ["c"] ∧
      healthyRec mapFast w = true ∧
      ∀ v ∈ ["c"], healthyRec mapFast v = true →
        metricOf mapFast w ≤ metricOf mapFast v) ∧
    selectFastestURL mapNone soloTarget = soloTarget.targetURLs.headD "" := by
  obtain ⟨h1, h2, h3, h4⟩ := selection_fastest_healthy
  exact ⟨h1 mapNone ["z"] ⟨"z", by decide, rfl⟩,
    h2 mapUnhealthy "b" [] (by decide) (by decide),
    h3 mapFast ["c"] "c" (by decide) (by decide) (by decide) (by decide),
    (h4 mapNone mapFast soloTarget (by decide)).1⟩

/-- Claim C6 (amended): a routed request is rejected with 503 exactly when
URL selection yields the empty string; a route with exactly one
non-empty URL is dispatched to it even when that URL is recorded
unhealthy; and a route with several URLs, all recorded and all
unhealthy, is dispatched to its first URL (the fallback), not rejected
with 503. -/
theorem serveRoute_503 :
    (∀ (targets : List ProxyTarget) (m : HealthMap) (path method : String),
      serveRoute targets m path method =
          ServeOutcome.httpError 503 "Service Unavailable" ↔
        ∃ t, findTarget targets path method = some t ∧
          selectFastestURL m t = "") ∧
    (∀ (targets : List ProxyTarget) (m : HealthMap) (path method : String)
        (t : ProxyTarget) (u : String),
      findTarget targets path method = some t → t.targetURLs = [u] →
      u ≠ "" →
      serveRoute targets m path method =
        ServeOutcome.forward { t with targetURL := u } u) ∧
    (∀ (targets : List ProxyTarget) (m : HealthMap) (path method : String)
        (t : ProxyTarget) (u : String) (rest : List String),
      findTarget targets path method = some t →
      t.targetURLs = u :: rest → rest ≠ [] → u ≠ "" →
      (∀ v ∈ t.targetURLs, (m v).isSome = true) →
      (∀ v ∈ t.targetURLs, healthyRec m v = false) →
      serveRoute targets m path method =
        ServeOutcome.forward { t with targetURL := u } u) := by
  refine ⟨?_, ?_, ?_⟩
  · intro targets m path method
    cases hft : findTarget targets path method with
    | none => simp [serveRoute, hft]
    | some t0 =>
      by_cases hsel : selectFastestURL m t0 = ""
      · simp [serveRoute, hft, hsel]
      · simp [serveRoute, hft, hsel]
  · intro targets m path method t u hft hurls hne
    have hsel : selectFastestURL m t = u := by
      simp [selectFastestURL, hurls]
    simp [serveRoute, hft, hsel, hne]
  · intro targets m path method t u rest hft hurls hrest hne hrec hunh
    have hlen : 1 < t.targetURLs.length := by
      rw [hurls]
      cases rest with
      | nil => exact absurd rfl hrest
      | cons a l => simp
    have hsel : selectFastestURL m t = u := by
      rw [selectFastestURL, if_pos hlen, hurls]
      exact GetFastestHealthyURL_fallback m u rest
        (by rw [← hurls]; exact hrec) (by rw [← hurls]; exact hunh)
    simp [serveRoute, hft, hsel, hne]

/-- Counterexample to C6 as stated: a route with exactly one URL whose
health is negative is dispatched to that URL, not rejected with 503
(the single-URL path of `selectFastestURL` never consults health). -/
theorem serveRoute_solo_counterexample :
    serveRoute [soloTarget] mapSoloUnhealthy "/x" "GET" =
      ServeOutcome.forward soloTarget "http://u" ∧
    healthyRec mapSoloUnhealthy "http://u" = false ∧
    serveRoute [soloTarget] mapSoloUnhealthy "/x" "GET" ≠
      ServeOutcome.httpError 503 "Service Unavailable" := by
  decide

/-- Closed instance of `serveRoute_503` with its hypotheses discharged
on concrete routes and registries. -/
theorem serveRoute_503_witness :
    serveRoute [soloTarget] mapNone "/x" "GET" =
      ServeOutcome.forward { soloTarget with targetURL := "http://u" }
        "http://u" ∧
    serveRoute [duoTarget] mapDuoUnhealthy "/y" "GET" =
      ServeOutcome.forward { duoTarget with targetURL := "http://b" }
        "http://b" := by
  obtain ⟨h1, h2, h3⟩ := serveRoute_503
  exact ⟨h2 [soloTarget] mapNone "/x" "GET" soloTarget "http://u"
      (by decide) rfl (by decide),
    h3 [duoTarget] mapDuoUnhealthy "/y" "GET" duoTarget "http://b"
      ["http://c"] (by decide) rfl (by decide) (by decide) (by decide)
      (by decide)⟩

end CCProxy
